import Mathlib

/-!
# alertmanager_gotify: the Alertmanager webhook to Gotify relay of `main.go`

A shallow embedding of `main.go`.

* `formatTime`, `sendToGotify` and `webhookHandler` follow the Go functions of the same
  name statement by statement.
* `alertTemplate` is the constant of the same name in its parsed form (what
  `template.Parse` yields for it); `execute` is `text/template` execution restricted to
  the node kinds that occur in it.
* The standard library the program calls is modelled as documented: `time.Time.Format`
  for the two layouts used (`Time.Format`), `encoding/json` decoding into the three
  payload types (`decodeBody`), and the map access rule of `text/template`
  (`evalMapField`).
* What the environment decides is a field of `Env`: the two configuration variables, the
  outcome of `time.LoadLocation`, of `http.NewRequest`, of `client.Do`, and the RFC 3339
  parser applied to `startsAt` and `endsAt`.  Logging is left out.
-/

namespace AlertmanagerGotify

/-! ## `time.Time`, `time.Location` and `Time.Format` -/

/-- A `time.Time` as far as `Format` observes it: the instant in seconds since
1970-01-01T00:00:00Z, the nanoseconds within the second, and the offset east of UTC, in
seconds, that the value's location has at this instant. -/
structure Time where
  unix : Int
  nsec : Nat
  offset : Int
deriving DecidableEq

/-- A `time.Location`: the offset in force before the first transition and the
transitions `(when, offset)` in ascending order of `when`. -/
structure Location where
  first : Int
  tx : List (Int × Int)

/-- Offset in force at the instant `sec`: that of the last transition not after `sec`. -/
def Location.lookup (l : Location) (sec : Int) : Int :=
  l.tx.foldl (fun cur p => if p.1 ≤ sec then p.2 else cur) l.first

/-- The zone `Asia/Shanghai` of the IANA time zone database (which is what
`time.LoadLocation("Asia/Shanghai")` reads): local mean time +8:05:43 until 1901, then
+8:00 with summer time +9:00 in 1919, 1940 to 1949 and 1986 to 1991; after the last
transition the rule `CST-8` keeps +8:00. -/
def asiaShanghai : Location where
  first := 29143
  tx := [(-2177481943, 28800), (-1600675200, 32400), (-1585904400, 28800),
    (-933667200, 32400), (-922093200, 28800), (-908870400, 32400), (-888829200, 28800),
    (-881049600, 32400), (-767869200, 28800), (-745833600, 32400), (-733827600, 28800),
    (-716889600, 32400), (-699613200, 28800), (-683884800, 32400), (-670669200, 28800),
    (-652348800, 32400), (-650019600, 28800), (515527200, 32400), (527014800, 28800),
    (545162400, 32400), (558464400, 28800), (577216800, 32400), (589914000, 28800),
    (608666400, 32400), (621968400, 28800), (640116000, 32400), (653418000, 28800),
    (671565600, 32400), (684867600, 28800)]

/-- `t.In(loc)`: the same instant, shown in `loc`. -/
def Time.In (t : Time) (loc : Location) : Time :=
  { t with offset := loc.lookup t.unix }

/-- Go `isLeap`. -/
def isLeap (year : Int) : Bool :=
  year % 4 = 0 ∧ (year % 100 ≠ 0 ∨ year % 400 = 0)

/-- Go `daysBefore[m]`: days of a non-leap year before month `m + 1`. -/
def daysBefore (m : Int) : Int :=
  if m = 0 then 0 else if m = 1 then 31 else if m = 2 then 59 else if m = 3 then 90
  else if m = 4 then 120 else if m = 5 then 151 else if m = 6 then 181
  else if m = 7 then 212 else if m = 8 then 243 else if m = 9 then 273
  else if m = 10 then 304 else if m = 11 then 334 else 365

/-- First half of Go `absDate`: year and zero-based day of the year of day `d`, where day
0 is 0001-01-01 (Go counts from a year congruent to 1 modulo 400, so the cycles agree).
The `q - q / 4` steps are Go's `n -= n >> 2`. -/
def absYear (d : Int) : Int × Int :=
  let n400 := d / 146097
  let d1 := d - 146097 * n400
  let q100 := d1 / 36524
  let n100 := q100 - q100 / 4
  let d2 := d1 - 36524 * n100
  let n4 := d2 / 1461
  let d3 := d2 - 1461 * n4
  let q1 := d3 / 365
  let n1 := q1 - q1 / 4
  (400 * n400 + 100 * n100 + 4 * n4 + n1 + 1, d3 - 365 * n1)

/-- Second half of Go `absDate`: month (1 to 12) and day of the month from the day of the
year. -/
def monthDay (year yday : Int) : Int × Int :=
  if isLeap year ∧ yday = 31 + 29 - 1 then (2, 29)
  else
    let day := if isLeap year ∧ yday > 31 + 29 - 1 then yday - 1 else yday
    let month := day / 31
    let stop := daysBefore (month + 1)
    if day ≥ stop then (month + 2, day - stop + 1)
    else (month + 1, day - daysBefore month + 1)

/-- Go `absDate`: year, month, day of day `d` counted from 0001-01-01. -/
def absDate (d : Int) : Int × Int × Int :=
  let yd := absYear d
  let md := monthDay yd.1 yd.2
  (yd.1, md.1, md.2)

/-- Seconds from 0001-01-01T00:00:00 to 1970-01-01T00:00:00 (Go `unixToInternal`). -/
def unixToInternal : Int := 62135596800

/-- Wall-clock seconds since 0001-01-01T00:00:00 in the value's own location. -/
def Time.abs (t : Time) : Int := t.unix + t.offset + unixToInternal

/-- Year, month, day shown by the value in its location. -/
def Time.date (t : Time) : Int × Int × Int := absDate (t.abs / 86400)

/-- Go `absClock`: hour, minute, second shown by the value in its location. -/
def Time.clock (t : Time) : Int × Int × Int :=
  let sec := t.abs % 86400
  (sec / 3600, sec % 3600 / 60, sec % 60)

/-- Go `appendInt`: decimal digits of `x`, zero-padded to `width` digits, after a minus
sign when `x` is negative. -/
def appendInt (x : Int) (width : Nat) : String :=
  let ds := Nat.toDigits 10 x.natAbs
  (if x < 0 then "-" else "") ++ String.mk (List.replicate (width - ds.length) '0' ++ ds)

/-- The layout elements that occur in the two layouts the program uses. -/
inductive Chunk where
  | lit (s : String)
  | stdLongYear
  | stdZeroMonth
  | stdZeroDay
  | stdHour
  | stdZeroMinute
  | stdZeroSecond
  | stdISO8601ColonTZ

/-- The layout `"2006-01-02 15:04:05"`. -/
def layoutDateTime : List Chunk :=
  [.stdLongYear, .lit "-", .stdZeroMonth, .lit "-", .stdZeroDay, .lit " ",
   .stdHour, .lit ":", .stdZeroMinute, .lit ":", .stdZeroSecond]

/-- The layout `time.RFC3339`, `"2006-01-02T15:04:05Z07:00"`. -/
def RFC3339 : List Chunk :=
  [.stdLongYear, .lit "-", .stdZeroMonth, .lit "-", .stdZeroDay, .lit "T",
   .stdHour, .lit ":", .stdZeroMinute, .lit ":", .stdZeroSecond, .stdISO8601ColonTZ]

/-- The `Z07:00` element: `Z` at offset zero, else sign, hours and minutes of the offset
(Go divides the offset by 60 rounding toward zero and drops the seconds). -/
def formatZone (offset : Int) : String :=
  if offset = 0 then "Z"
  else
    let zone := Int.tdiv offset 60
    if zone < 0 then
      "-" ++ appendInt (Int.tdiv (-zone) 60) 2 ++ ":" ++ appendInt (Int.tmod (-zone) 60) 2
    else
      "+" ++ appendInt (Int.tdiv zone 60) 2 ++ ":" ++ appendInt (Int.tmod zone 60) 2

/-- Text of one layout element for `t`. -/
def Chunk.format (t : Time) : Chunk → String
  | .lit s => s
  | .stdLongYear => appendInt t.date.1 4
  | .stdZeroMonth => appendInt t.date.2.1 2
  | .stdZeroDay => appendInt t.date.2.2 2
  | .stdHour => appendInt t.clock.1 2
  | .stdZeroMinute => appendInt t.clock.2.1 2
  | .stdZeroSecond => appendInt t.clock.2.2 2
  | .stdISO8601ColonTZ => formatZone t.offset

/-- `t.Format(layout)`. -/
def Time.Format (t : Time) (layout : List Chunk) : String :=
  String.join (layout.map (Chunk.format t))

/-- `formatTime` of `main.go`; `loadLocation` is what `time.LoadLocation("Asia/Shanghai")`
returned, `none` when it returned an error. -/
def formatTime (loadLocation : Option Location) (t : Time) : String :=
  match loadLocation with
  | none => t.Format RFC3339
  | some loc => (t.In loc).Format layoutDateTime

/-- Month lengths of the Gregorian calendar. -/
def daysIn (y m : Int) : Int :=
  if m = 2 then (if isLeap y then 29 else 28)
  else if m = 4 ∨ m = 6 ∨ m = 9 ∨ m = 11 then 30 else 31

/-- Number of days from 0001-01-01 to the Gregorian date `y-m-d`, counted plainly: whole
years, leap days of earlier years, earlier months of the year, earlier days of the
month. -/
def daysFromCivil (y m d : Int) : Int :=
  365 * (y - 1) + (y - 1) / 4 - (y - 1) / 100 + (y - 1) / 400
    + daysBefore (m - 1) + (if 2 < m ∧ isLeap y then 1 else 0) + (d - 1)

/-- Seconds from 1970-01-01T00:00:00 to `y-m-d h:mi:s` on the same clock (what
`time.Date(y, m, d, h, mi, s, 0, time.UTC).Unix()` is). -/
def unixDate (y m d h mi s : Int) : Int :=
  (daysFromCivil y m d - 719162) * 86400 + h * 3600 + mi * 60 + s

/-! ## The payload types -/

/-- A Go `map[string]string`: `none` is the nil map; in the list an earlier entry hides a
later one with the same key, so storing is adding in front. -/
abbrev GoMap := Option (List (String × String))

/-- First entry of an association list with the key. -/
def assocFind (k : String) : List (String × String) → Option String
  | [] => none
  | (k1, v) :: rest => if k1 = k then some v else assocFind k rest

/-- Map lookup `m[k]` with its presence flag; every key is absent from the nil map. -/
def GoMap.index (m : GoMap) (k : String) : Option String :=
  match m with
  | none => none
  | some kvs => assocFind k kvs

/-- The statement `m[k] = v`, allocating the map when it is nil. -/
def GoMap.set (m : GoMap) (k v : String) : GoMap :=
  some ((k, v) :: m.getD [])

/-- The struct `Alert`. -/
structure Alert where
  Status : String
  Labels : GoMap
  Annotations : GoMap
  StartsAt : Time
  EndsAt : Time

/-- The struct `AlertManagerPayload`; the nil slice and the empty slice are both `[]`. -/
structure AlertManagerPayload where
  Alerts : List Alert

/-- A `[]Alert` while it is decoded into: its elements, and the elements its backing array
still holds beyond its length (memory that was never written is zero and is left out). -/
structure AlertSlice where
  elems : List Alert
  spare : List Alert

/-- The struct `GotifyPayload`. -/
structure GotifyPayload where
  Title : String
  Message : String
  Priority : Int
deriving DecidableEq

/-! ## `text/template` execution of `alertTemplate` -/

/-- The `missingkey` option of a template; `template.New` starts with `mapInvalid` and
`webhookHandler` never changes it. -/
inductive MissingKey where
  | mapInvalid
  | mapZeroValue
  | mapError

/-- The pipelines of the template, evaluated with an `Alert` as dot. -/
inductive Pipeline where
  | labels (key : String)
  | annotations (key : String)
  | startsAtFormatTime
  | endsAtFormatTime

/-- A node inside a branch of the `if`: text, or an action printing a pipeline. -/
inductive Leaf where
  | text (s : String)
  | action (p : Pipeline)

/-- A node inside the `range`: text, or `if eq .Status lit` with its two branches. -/
inductive Item where
  | text (s : String)
  | ifEqStatus (lit : String) (thenList elseList : List Leaf)

/-- A node at the top level, where dot is the alert slice: text, or `range .`. -/
inductive Top where
  | text (s : String)
  | range (body : List Item)

/-- The branch between `if eq .Status "firing"` and `else`. -/
def firingBranch : List Leaf :=
  [.text "**[⚠️告警]**\n告警名称: ", .action (.labels "alertname"),
   .text "\n开始时间: ", .action .startsAtFormatTime,
   .text "\n结束时间: ", .action .startsAtFormatTime,
   .text "\n实例: ", .action (.labels "instance"),
   .text "\nIP: ", .action (.annotations "ip"),
   .text "\n描述: ", .action (.annotations "description"),
   .text "\n"]

/-- The branch between `else` and `end`. -/
def resolvedBranch : List Leaf :=
  [.text "**[✅恢复]**\n告警名称: ", .action (.labels "alertname"),
   .text "\n开始时间: ", .action .startsAtFormatTime,
   .text "\n结束时间: ", .action .endsAtFormatTime,
   .text "\n实例: ", .action (.labels "instance"),
   .text "\nIP: ", .action (.annotations "ip"),
   .text "\n描述: ", .action (.annotations "description"),
   .text "\n"]

/-- The nodes between `range .` and its `end`. -/
def rangeBody : List Item :=
  [.text " \n", .ifEqStatus "firing" firingBranch resolvedBranch, .text "\n"]

/-- The constant `alertTemplate`, parsed. -/
def alertTemplate : List Top :=
  [.text "\n", .range rangeBody, .text "\n"]

/-- Text printed for field `.key` of a `map[string]string` in a template: the entry when
present. When the key is absent (always so for the nil map) the `missingkey` option
decides: by default the result is the invalid value, printed as `<no value>`; with
`missingkey=zero` it is the zero value of the element type, the empty string; with
`missingkey=error` the execution stops with an error. -/
def evalMapField (opt : MissingKey) (m : GoMap) (key : String) : Except String String :=
  match m.index key with
  | some v => .ok v
  | none =>
    match opt with
    | .mapInvalid => .ok "<no value>"
    | .mapZeroValue => .ok ""
    | .mapError => .error ("map has no entry for key " ++ key)

/-- Value printed by an action. -/
def evalPipeline (opt : MissingKey) (loc : Option Location) (a : Alert) :
    Pipeline → Except String String
  | .labels key => evalMapField opt a.Labels key
  | .annotations key => evalMapField opt a.Annotations key
  | .startsAtFormatTime => .ok (formatTime loc a.StartsAt)
  | .endsAtFormatTime => .ok (formatTime loc a.EndsAt)

/-- Executes the items of a list in order and concatenates what they write; the first
error ends the execution. -/
def execList {α : Type} (f : α → Except String String) : List α → Except String String
  | [] => .ok ""
  | x :: xs =>
    match f x with
    | .error e => .error e
    | .ok s =>
      match execList f xs with
      | .error e => .error e
      | .ok r => .ok (s ++ r)

/-- Executes a node of an `if` branch. -/
def execLeaf (opt : MissingKey) (loc : Option Location) (a : Alert) :
    Leaf → Except String String
  | .text s => .ok s
  | .action p => evalPipeline opt loc a p

/-- Executes a node of the `range` body with the alert as dot. -/
def execItem (opt : MissingKey) (loc : Option Location) (a : Alert) :
    Item → Except String String
  | .text s => .ok s
  | .ifEqStatus lit thenList elseList =>
    if a.Status = lit then execList (execLeaf opt loc a) thenList
    else execList (execLeaf opt loc a) elseList

/-- One pass of a `range` body: the block of one alert. -/
def execBody (opt : MissingKey) (loc : Option Location) (body : List Item) (a : Alert) :
    Except String String :=
  execList (execItem opt loc a) body

/-- Executes a `range` over the alerts: one pass of the body per alert, in order; nothing
for the empty slice. -/
def execRange (opt : MissingKey) (loc : Option Location) (body : List Item)
    (alerts : List Alert) : Except String String :=
  execList (execBody opt loc body) alerts

/-- Executes a top-level node with the alert slice as dot. -/
def execTop (opt : MissingKey) (loc : Option Location) (alerts : List Alert) :
    Top → Except String String
  | .text s => .ok s
  | .range body => execRange opt loc body alerts

/-- `tmpl.Execute(&message, payload.Alerts)`: the text written, or the error. -/
def execute (opt : MissingKey) (loc : Option Location) (tmpl : List Top)
    (alerts : List Alert) : Except String String :=
  execList (execTop opt loc alerts) tmpl

/-! ## `encoding/json` decoding of the request body -/

/-- A JSON value; a number keeps its literal. -/
inductive Json where
  | null
  | bool (b : Bool)
  | num (literal : String)
  | str (s : String)
  | arr (elems : List Json)
  | obj (members : List (String × Json))

/-- Case folding of one character of an object key: ASCII upper case to lower case, and
the two characters outside ASCII that fold to an ASCII letter (long s, Kelvin sign). -/
def foldChar (c : Char) : Char :=
  if c = Char.ofNat 0x17F then 's'
  else if c = Char.ofNat 0x212A then 'k'
  else c.toLower

/-- Case folding of an object key; a key names a struct field when the two fold to the
same string. The field names of the program are ASCII, and no two of one struct fold
alike, so an exact match and a folded match select the same field. -/
def foldName (key : String) : String :=
  String.mk (key.data.map foldChar)

/-- The zero `time.Time`, 0001-01-01T00:00:00Z. -/
def zeroTime : Time := ⟨-62135596800, 0, 0⟩

/-- The zero `Alert`. -/
def zeroAlert : Alert := ⟨"", none, none, zeroTime, zeroTime⟩

/-- Decoding into a Go `string` holding `cur`: `null` leaves it, a JSON string sets it,
any other value is an `UnmarshalTypeError`. -/
def decodeString (cur : String) : Json → Except String String
  | .null => .ok cur
  | .str s => .ok s
  | _ => .error "json: cannot unmarshal into Go value of type string"

/-- Stores the members of a JSON object into a `map[string]string`, in order; each value
is decoded into a fresh string. -/
def decodeMembers (m : List (String × String)) :
    List (String × Json) → Except String (List (String × String))
  | [] => .ok m
  | (k, v) :: rest =>
    match decodeString "" v with
    | .error e => .error e
    | .ok s => decodeMembers ((k, s) :: m) rest

/-- Decoding into a `map[string]string` holding `cur`: `null` sets it to nil, an object
is stored into the map (allocated when nil, else kept with its entries), any other value
is an `UnmarshalTypeError`. -/
def decodeMap (cur : GoMap) : Json → Except String GoMap
  | .null => .ok none
  | .obj members =>
    match decodeMembers (cur.getD []) members with
    | .error e => .error e
    | .ok m => .ok (some m)
  | _ => .error "json: cannot unmarshal into Go value of type map[string]string"

/-- Decoding into a `time.Time` holding `cur` (`Time.UnmarshalJSON`): `null` leaves it, a
JSON string is parsed as RFC 3339, any other value is an error. -/
def decodeTime (parseTime : String → Option Time) (cur : Time) : Json → Except String Time
  | .null => .ok cur
  | .str s =>
    match parseTime s with
    | some t => .ok t
    | none => .error "parsing time: not RFC 3339"
  | _ => .error "Time.UnmarshalJSON: input is not a JSON string"

/-- Decoding one object member into the field of `Alert` it names; a key that names no
field is skipped. -/
def decodeAlertField (parseTime : String → Option Time) (cur : Alert) (key : String)
    (v : Json) : Except String Alert :=
  let k := foldName key
  if k = "status" then
    match decodeString cur.Status v with
    | .error e => .error e
    | .ok s => .ok { cur with Status := s }
  else if k = "labels" then
    match decodeMap cur.Labels v with
    | .error e => .error e
    | .ok m => .ok { cur with Labels := m }
  else if k = "annotations" then
    match decodeMap cur.Annotations v with
    | .error e => .error e
    | .ok m => .ok { cur with Annotations := m }
  else if k = "startsat" then
    match decodeTime parseTime cur.StartsAt v with
    | .error e => .error e
    | .ok t => .ok { cur with StartsAt := t }
  else if k = "endsat" then
    match decodeTime parseTime cur.EndsAt v with
    | .error e => .error e
    | .ok t => .ok { cur with EndsAt := t }
  else .ok cur

/-- Decodes the members of an alert object in order. -/
def decodeAlertMembers (parseTime : String → Option Time) (cur : Alert) :
    List (String × Json) → Except String Alert
  | [] => .ok cur
  | (k, v) :: rest =>
    match decodeAlertField parseTime cur k v with
    | .error e => .error e
    | .ok a => decodeAlertMembers parseTime a rest

/-- Decoding into an `Alert` holding `cur`: `null` leaves it, an object is decoded member
by member, any other value is an `UnmarshalTypeError`. -/
def decodeAlert (parseTime : String → Option Time) (cur : Alert) : Json → Except String Alert
  | .null => .ok cur
  | .obj members => decodeAlertMembers parseTime cur members
  | _ => .error "json: cannot unmarshal into Go value of type main.Alert"

/-- Decodes the elements of an `alerts` array in order. Element `i` is decoded into what
the backing array holds at index `i`: `store` lists that content from the current index
on, and beyond it the memory is fresh, a zero `Alert`. -/
def decodeElems (parseTime : String → Option Time) :
    List Alert → List Json → Except String (List Alert)
  | _, [] => .ok []
  | store, j :: rest =>
    match decodeAlert parseTime (store.headD zeroAlert) j with
    | .error e => .error e
    | .ok a =>
      match decodeElems parseTime store.tail rest with
      | .error e => .error e
      | .ok tl => .ok (a :: tl)

/-- Decoding into a `[]Alert` holding `cur`: `null` sets it to nil and the empty array to
a new empty slice; an array with elements is decoded element by element into the backing
array, the length becomes the number of elements, and what the backing array holds
beyond stays; any other value is an `UnmarshalTypeError`. -/
def decodeAlerts (parseTime : String → Option Time) (cur : AlertSlice) :
    Json → Except String AlertSlice
  | .null => .ok ⟨[], []⟩
  | .arr [] => .ok ⟨[], []⟩
  | .arr (j :: rest) =>
    match decodeElems parseTime (cur.elems ++ cur.spare) (j :: rest) with
    | .error e => .error e
    | .ok as => .ok ⟨as, (cur.elems ++ cur.spare).drop as.length⟩
  | _ => .error "json: cannot unmarshal into Go value of type []main.Alert"

/-- Decodes the members of the top-level object in order; only a key that names the field
`Alerts` has an effect, and each such member is decoded into the slice as the earlier
ones left it. -/
def decodePayloadMembers (parseTime : String → Option Time) (cur : AlertSlice) :
    List (String × Json) → Except String AlertSlice
  | [] => .ok cur
  | (k, v) :: rest =>
    if foldName k = "alerts" then
      match decodeAlerts parseTime cur v with
      | .error e => .error e
      | .ok as => decodePayloadMembers parseTime as rest
    else decodePayloadMembers parseTime cur rest

/-- Decoding into an `AlertManagerPayload` whose `Alerts` is `cur`: `null` leaves it, an
object is decoded member by member, any other value is an `UnmarshalTypeError`. -/
def decodePayload (parseTime : String → Option Time) (cur : AlertSlice) :
    Json → Except String AlertSlice
  | .null => .ok cur
  | .obj members => decodePayloadMembers parseTime cur members
  | _ => .error "json: cannot unmarshal into Go value of type main.AlertManagerPayload"

/-- `json.NewDecoder(r.Body).Decode(&payload)` on a fresh `payload`. The decoder reads one
JSON value from the start of the body and does not look at what follows it, so the body
is given by that value: `none` when the body does not begin with a well-formed JSON value
(a syntax error or an early end of input). -/
def decodeBody (parseTime : String → Option Time) :
    Option Json → Except String AlertManagerPayload
  | none => .error "invalid character"
  | some j =>
    match decodePayload parseTime ⟨[], []⟩ j with
    | .error e => .error e
    | .ok slice => .ok ⟨slice.elems⟩

/-! ### Which bodies decode

The rule of `encoding/json` for the payload types, stated on the JSON value alone: every
value that is present has a JSON type its target can take. -/

/-- An outbound `http.Request`; `body` stands for its JSON encoding (`json.Marshal` of a
`GotifyPayload` has no error case). -/
structure Request where
  method : String
  url : String
  header : List (String × String)
  body : GotifyPayload
deriving DecidableEq

/-- What `client.Do(req)` returns: an error, or a response with its status code. -/
inductive DoResult where
  | err (msg : String)
  | resp (statusCode : Nat)
deriving DecidableEq

/-- What the process reads from its environment. -/
structure Env where
  /-- The variable `GOTIFY_URL`. -/
  gotifyURL : String
  /-- The variable `GOTIFY_TOKEN`. -/
  gotifyToken : String
  /-- Result of `time.LoadLocation("Asia/Shanghai")`, `none` for an error. -/
  loadLocation : Option Location
  /-- RFC 3339 parser of `Time.UnmarshalJSON`. -/
  parseTime : String → Option Time
  /-- Whether `http.NewRequest` accepts the URL. -/
  validURL : String → Bool
  /-- Outcome of `client.Do` for a request. -/
  clientDo : Request → DoResult

/-- The request `sendToGotify` builds for a payload. -/
def gotifyRequest (env : Env) (payload : GotifyPayload) : Request :=
  { method := "POST", url := env.gotifyURL,
    header := [("Content-Type", "application/json"), ("X-Gotify-Key", env.gotifyToken)],
    body := payload }

/-- `sendToGotify` of `main.go`: the returned error (`none` for nil) and the requests
handed to `client.Do`. -/
def sendToGotify (env : Env) (payload : GotifyPayload) : Option String × List Request :=
  if env.validURL env.gotifyURL then
    let req := gotifyRequest env payload
    match env.clientDo req with
    | .err msg => (some msg, [req])
    | .resp statusCode =>
      if statusCode ≠ 200 then (some "Gotify returned non-200 status", [req])
      else (none, [req])
  else (some "net/http: invalid request", [])

/-- What one call of `webhookHandler` does: the response status and body, the payloads
passed to `sendToGotify`, and the requests handed to `client.Do`. -/
structure Outcome where
  status : Nat
  body : String
  dispatched : List GotifyPayload
  sent : List Request
deriving DecidableEq

/-- `webhookHandler` of `main.go`. -/
def webhookHandler (env : Env) (body : Option Json) : Outcome :=
  match decodeBody env.parseTime body with
  | .error _ => ⟨400, "Failed to decode JSON payload\n", [], []⟩
  | .ok payload =>
    match execute .mapInvalid env.loadLocation alertTemplate payload.Alerts with
    | .error _ => ⟨500, "Failed to render template\n", [], []⟩
    | .ok message =>
      let gotifyPayload : GotifyPayload :=
        { Title := "Prometheus Alert", Message := message, Priority := 5 }
      match sendToGotify env gotifyPayload with
      | (some _, sent) => ⟨500, "Failed to send alert to Gotify\n", [gotifyPayload], sent⟩
      | (none, sent) => ⟨200, "", [gotifyPayload], sent⟩

/-! ## Sample values -/

/-- An environment in which the zone database is present and Gotify answers 200; its
time parser knows the one timestamp of the example. -/
def sampleEnv : Env where
  gotifyURL := "http://gotify.local/message"
  gotifyToken := "token"
  loadLocation := some asiaShanghai
  parseTime := fun s => if s = "2024-01-15T10:30:00Z" then some ⟨1705314600, 0, 0⟩ else none
  validURL := fun _ => true
  clientDo := fun _ => .resp 200

/-- The alert of the end-to-end example of the specification. -/
def highCPU : Alert where
  Status := "firing"
  Labels := some [("alertname", "HighCPU"), ("instance", "host1")]
  Annotations := some [("ip", "10.0.0.1"), ("description", "CPU too high")]
  StartsAt := ⟨1705314600, 0, 0⟩
  EndsAt := zeroTime

/-- The request body of the end-to-end example as a JSON value. -/
def highCPUBody : Json :=
  .obj [("alerts", .arr [.obj [
    ("status", .str "firing"),
    ("labels", .obj [("alertname", .str "HighCPU"), ("instance", .str "host1")]),
    ("annotations", .obj [("ip", .str "10.0.0.1"), ("description", .str "CPU too high")]),
    ("startsAt", .str "2024-01-15T10:30:00Z")]])]

/-! ## The calendar computation of `Format` -/

theorem isLeap_iff (y : Int) :
    isLeap y = true ↔ (y % 4 = 0 ∧ (y % 100 ≠ 0 ∨ y % 400 = 0)) := by
  simp [isLeap]

theorem absYear_core (d n400 d1 q100 n100 d2 n4 d3 q1 n1 y yd : Int)
    (hn400 : n400 = d / 146097) (hd1 : d1 = d - 146097 * n400)
    (hq100 : q100 = d1 / 36524) (hn100 : n100 = q100 - q100 / 4)
    (hd2 : d2 = d1 - 36524 * n100) (hn4 : n4 = d2 / 1461) (hd3 : d3 = d2 - 1461 * n4)
    (hq1 : q1 = d3 / 365) (hn1 : n1 = q1 - q1 / 4)
    (hy : y = 400 * n400 + 100 * n100 + 4 * n4 + n1 + 1) (hyd : yd = d3 - 365 * n1) :
    0 ≤ yd ∧ (yd < 365 ∨ (yd = 365 ∧ (y % 4 = 0 ∧ (y % 100 ≠ 0 ∨ y % 400 = 0)))) ∧
    365 * (y - 1) + (y - 1) / 4 - (y - 1) / 100 + (y - 1) / 400 + yd = d := by
  have h1 : 0 ≤ d1 ∧ d1 < 146097 := by omega
  have hq : q100 = 0 ∨ q100 = 1 ∨ q100 = 2 ∨ q100 = 3 ∨ q100 = 4 := by omega
  have h2 : 0 ≤ d2 ∧ d2 ≤ 36524 := by omega
  have h4 : 0 ≤ n4 ∧ n4 ≤ 24 := by omega
  have h3 : 0 ≤ d3 ∧ d3 < 1461 := by omega
  have hq1r : q1 = 0 ∨ q1 = 1 ∨ q1 = 2 ∨ q1 = 3 ∨ q1 = 4 := by omega
  rcases hq with h | h | h | h | h <;> rcases hq1r with h' | h' | h' | h' | h' <;>
    subst h <;> subst h' <;> omega

/-- The year split of `absDate` is the Gregorian one: the day of the year lies within the
year, and the days of the earlier years plus the day of the year give the day back. -/
theorem absYear_spec (d : Int) :
    0 ≤ (absYear d).2 ∧ (absYear d).2 < (if isLeap (absYear d).1 then 366 else 365) ∧
    365 * ((absYear d).1 - 1) + ((absYear d).1 - 1) / 4 - ((absYear d).1 - 1) / 100
      + ((absYear d).1 - 1) / 400 + (absYear d).2 = d := by
  obtain ⟨h0, h1, h2⟩ := absYear_core d _ _ _ _ _ _ _ _ _ (absYear d).1 (absYear d).2
    rfl rfl rfl rfl rfl rfl rfl rfl rfl rfl rfl
  refine ⟨h0, ?_, h2⟩
  by_cases hl : isLeap (absYear d).1 = true
  · rw [if_pos hl]; omega
  · rw [if_neg hl]
    rw [isLeap_iff] at hl
    rcases h1 with h1 | ⟨_, h1⟩
    · exact h1
    · exact absurd h1 hl

theorem daysBefore_values :
    daysBefore 0 = 0 ∧ daysBefore 1 = 31 ∧ daysBefore 2 = 59 ∧ daysBefore 3 = 90 ∧
    daysBefore 4 = 120 ∧ daysBefore 5 = 151 ∧ daysBefore 6 = 181 ∧ daysBefore 7 = 212 ∧
    daysBefore 8 = 243 ∧ daysBefore 9 = 273 ∧ daysBefore 10 = 304 ∧ daysBefore 11 = 334 ∧
    daysBefore 12 = 365 := by
  decide

theorem monthDay_core (day m : Int) (h0 : 0 ≤ day) (h1 : day < 365) (hm : m = day / 31)
    (r : Int × Int)
    (hr : r = if day ≥ daysBefore (m + 1) then (m + 2, day - daysBefore (m + 1) + 1)
      else (m + 1, day - daysBefore m + 1)) :
    1 ≤ r.1 ∧ r.1 ≤ 12 ∧ 1 ≤ r.2 ∧
    r.2 ≤ (if r.1 = 2 then 28 else if r.1 = 4 ∨ r.1 = 6 ∨ r.1 = 9 ∨ r.1 = 11 then 30 else 31) ∧
    daysBefore (r.1 - 1) + (r.2 - 1) = day ∧ (r.1 ≤ 2 ↔ day < 59) := by
  obtain ⟨e0, e1, e2, e3, e4, e5, e6, e7, e8, e9, e10, e11, e12⟩ := daysBefore_values
  have hm : m = 0 ∨ m = 1 ∨ m = 2 ∨ m = 3 ∨ m = 4 ∨ m = 5 ∨ m = 6 ∨ m = 7 ∨ m = 8 ∨
      m = 9 ∨ m = 10 ∨ m = 11 := by omega
  rcases hm with h | h | h | h | h | h | h | h | h | h | h | h <;> subst h <;>
    simp only [Int.reduceAdd, Int.reduceSub, e0, e1, e2, e3, e4, e5, e6, e7, e8, e9, e10,
      e11, e12] at hr <;>
    split_ifs at hr with hc <;> subst hr <;>
    simp only [Int.reduceAdd, Int.reduceSub, e0, e1, e2, e3, e4, e5, e6, e7, e8, e9, e10,
      e11, e12] <;>
    norm_num <;> omega

/-- The month split of `absDate`: a month from 1 to 12, a day within the month, and the
days before the month plus the day give the day of the year back. -/
theorem monthDay_spec (y yd : Int) (h0 : 0 ≤ yd)
    (h1 : yd < (if isLeap y then 366 else 365)) :
    1 ≤ (monthDay y yd).1 ∧ (monthDay y yd).1 ≤ 12 ∧
    1 ≤ (monthDay y yd).2 ∧ (monthDay y yd).2 ≤ daysIn y (monthDay y yd).1 ∧
    daysBefore ((monthDay y yd).1 - 1)
      + (if 2 < (monthDay y yd).1 ∧ isLeap y then 1 else 0) + ((monthDay y yd).2 - 1) = yd := by
  cases hl : isLeap y
  · simp only [hl, Bool.false_eq_true, if_false] at h1
    have hmd : monthDay y yd = if yd ≥ daysBefore (yd / 31 + 1)
        then (yd / 31 + 2, yd - daysBefore (yd / 31 + 1) + 1)
        else (yd / 31 + 1, yd - daysBefore (yd / 31) + 1) := by
      simp only [monthDay, hl, Bool.false_eq_true, false_and, if_false]
    obtain ⟨a1, a2, a3, a4, a5, _⟩ := monthDay_core yd (yd / 31) h0 h1 rfl _ hmd
    refine ⟨a1, a2, a3, ?_, ?_⟩
    · simp only [daysIn, hl, Bool.false_eq_true, if_false]
      exact a4
    · simp only [Bool.false_eq_true, and_false, if_false]
      omega
  · simp only [hl, if_true] at h1
    by_cases h59 : yd = 59
    · subst h59
      have hmd : monthDay y 59 = (2, 29) := by
        simp [monthDay, hl]
      rw [hmd]
      simp [daysIn, hl, daysBefore]
    · by_cases hgt : yd > 59
      · have hmd : monthDay y yd = if yd - 1 ≥ daysBefore ((yd - 1) / 31 + 1)
            then ((yd - 1) / 31 + 2, yd - 1 - daysBefore ((yd - 1) / 31 + 1) + 1)
            else ((yd - 1) / 31 + 1, yd - 1 - daysBefore ((yd - 1) / 31) + 1) := by
          have h58 : yd > 31 + 29 - 1 := by omega
          have hne : ¬ yd = 31 + 29 - 1 := by omega
          simp only [monthDay, hl, true_and, hne, h58, if_true, if_false]
        obtain ⟨a1, a2, a3, a4, a5, a6⟩ :=
          monthDay_core (yd - 1) ((yd - 1) / 31) (by omega) (by omega) rfl _ hmd
        have hm3 : 2 < (monthDay y yd).1 := by
          by_contra hcon
          have := a6.mp (by omega)
          omega
        refine ⟨a1, a2, a3, ?_, ?_⟩
        · have hne2 : ¬ (monthDay y yd).1 = 2 := by omega
          simp only [daysIn, hne2, if_false]
          simpa only [hne2, if_false] using a4
        · simp only [hm3, hl, and_self, if_true]
          omega
      · have hmd : monthDay y yd = if yd ≥ daysBefore (yd / 31 + 1)
            then (yd / 31 + 2, yd - daysBefore (yd / 31 + 1) + 1)
            else (yd / 31 + 1, yd - daysBefore (yd / 31) + 1) := by
          have h58 : ¬ yd > 31 + 29 - 1 := by omega
          have hne : ¬ yd = 31 + 29 - 1 := by omega
          simp only [monthDay, hl, true_and, hne, h58, if_false]
        obtain ⟨a1, a2, a3, a4, a5, a6⟩ :=
          monthDay_core yd (yd / 31) h0 (by omega) rfl _ hmd
        have hm2 : (monthDay y yd).1 ≤ 2 := a6.mpr (by omega)
        have hn3 : ¬ 2 < (monthDay y yd).1 := by omega
        refine ⟨a1, a2, a3, ?_, ?_⟩
        · simp only [daysIn, hl, if_true]
          split_ifs at a4 ⊢ <;> omega
        · simp only [hn3, false_and, if_false]
          omega

/-- The date `absDate` computes is the Gregorian date of the day: a month from 1 to 12, a
day of that month, and the day number of that date is the day given. -/
theorem absDate_spec (d : Int) :
    1 ≤ (absDate d).2.1 ∧ (absDate d).2.1 ≤ 12 ∧ 1 ≤ (absDate d).2.2 ∧
    (absDate d).2.2 ≤ daysIn (absDate d).1 (absDate d).2.1 ∧
    daysFromCivil (absDate d).1 (absDate d).2.1 (absDate d).2.2 = d := by
  obtain ⟨h0, h1, h2⟩ := absYear_spec d
  obtain ⟨a1, a2, a3, a4, a5⟩ := monthDay_spec (absYear d).1 (absYear d).2 h0 h1
  refine ⟨a1, a2, a3, a4, ?_⟩
  show daysFromCivil (absYear d).1 (monthDay (absYear d).1 (absYear d).2).1
    (monthDay (absYear d).1 (absYear d).2).2 = d
  unfold daysFromCivil
  omega

/-! ## `Format` -/

/-- The components `Format` prints are those of the wall clock of the value: they are in
range and denote the instant plus the offset. -/
theorem date_clock_spec (t : Time) :
    1 ≤ t.date.2.1 ∧ t.date.2.1 ≤ 12 ∧ 1 ≤ t.date.2.2 ∧
    t.date.2.2 ≤ daysIn t.date.1 t.date.2.1 ∧
    0 ≤ t.clock.1 ∧ t.clock.1 < 24 ∧ 0 ≤ t.clock.2.1 ∧ t.clock.2.1 < 60 ∧
    0 ≤ t.clock.2.2 ∧ t.clock.2.2 < 60 ∧
    unixDate t.date.1 t.date.2.1 t.date.2.2 t.clock.1 t.clock.2.1 t.clock.2.2
      = t.unix + t.offset := by
  obtain ⟨a1, a2, a3, a4, a5⟩ := absDate_spec (t.abs / 86400)
  refine ⟨a1, a2, a3, a4, ?_⟩
  have hd : daysFromCivil t.date.1 t.date.2.1 t.date.2.2 = t.abs / 86400 := a5
  have habs : t.abs = t.unix + t.offset + 62135596800 := rfl
  simp only [unixDate, hd, Time.clock]
  omega

theorem format_layoutDateTime (t : Time) :
    t.Format layoutDateTime =
      appendInt t.date.1 4 ++ "-" ++ appendInt t.date.2.1 2 ++ "-" ++ appendInt t.date.2.2 2
        ++ " " ++ appendInt t.clock.1 2 ++ ":" ++ appendInt t.clock.2.1 2 ++ ":"
        ++ appendInt t.clock.2.2 2 := by
  simp only [Time.Format, layoutDateTime, List.map, String.join, List.foldl, Chunk.format,
    String.empty_append]

theorem format_RFC3339 (t : Time) :
    t.Format RFC3339 =
      appendInt t.date.1 4 ++ "-" ++ appendInt t.date.2.1 2 ++ "-" ++ appendInt t.date.2.2 2
        ++ "T" ++ appendInt t.clock.1 2 ++ ":" ++ appendInt t.clock.2.1 2 ++ ":"
        ++ appendInt t.clock.2.2 2 ++ formatZone t.offset := by
  simp only [Time.Format, RFC3339, List.map, String.join, List.foldl, Chunk.format,
    String.empty_append]

theorem lookup_all_past (tx : List (Int × Int)) (first sec : Int)
    (h : ∀ p ∈ tx, p.1 ≤ sec) :
    Location.lookup ⟨first, tx⟩ sec = (tx.getLast?.map Prod.snd).getD first := by
  induction tx generalizing first with
  | nil => rfl
  | cons p rest ih =>
    have hp : p.1 ≤ sec := h p (List.mem_cons_self _ _)
    have hrest : ∀ q ∈ rest, q.1 ≤ sec := fun q hq => h q (List.mem_cons_of_mem _ hq)
    have hstep : Location.lookup ⟨first, p :: rest⟩ sec = Location.lookup ⟨p.2, rest⟩ sec := by
      simp only [Location.lookup, List.foldl, hp, if_true]
    rw [hstep, ih p.2 hrest]
    cases rest with
    | nil => rfl
    | cons q rest2 =>
      rw [List.getLast?_cons_cons]
      cases hl : (q :: rest2).getLast? with
      | none => simp at hl
      | some x => rfl

/-- From the last transition of the zone table on, `Asia/Shanghai` is at +8:00. -/
theorem asiaShanghai_lookup_recent (sec : Int) (h : 684867600 ≤ sec) :
    asiaShanghai.lookup sec = 28800 := by
  have hall : ∀ p ∈ asiaShanghai.tx, p.1 ≤ 684867600 := by decide
  have := lookup_all_past asiaShanghai.tx asiaShanghai.first sec
    (fun p hp => le_trans (hall p hp) h)
  rw [show asiaShanghai = ⟨asiaShanghai.first, asiaShanghai.tx⟩ from rfl, this]
  decide

/-! ## Template execution -/

theorem evalMapField_mapInvalid (m : GoMap) (k : String) :
    evalMapField .mapInvalid m k = .ok ((m.index k).getD "<no value>") := by
  unfold evalMapField
  cases m.index k <;> rfl

theorem index_set (m : GoMap) (k v key : String) :
    (m.set k v).index key = if k = key then some v else m.index key := by
  cases m with
  | none => simp [GoMap.set, GoMap.index, assocFind]
  | some kvs => simp [GoMap.set, GoMap.index, assocFind]

theorem evalMapField_set_missing (m : GoMap) (k key : String) (h : m.index k = none) :
    evalMapField .mapInvalid (m.set k "<no value>") key = evalMapField .mapInvalid m key := by
  rw [evalMapField_mapInvalid, evalMapField_mapInvalid, index_set]
  by_cases hk : k = key
  · subst hk
    simp [h]
  · simp [hk]

theorem execBody_firing (loc : Option Location) (a : Alert) (h : a.Status = "firing") :
    execBody .mapInvalid loc rangeBody a = .ok
      (" \n**[⚠️告警]**\n告警名称: " ++ (a.Labels.index "alertname").getD "<no value>"
        ++ "\n开始时间: " ++ formatTime loc a.StartsAt
        ++ "\n结束时间: " ++ formatTime loc a.StartsAt
        ++ "\n实例: " ++ (a.Labels.index "instance").getD "<no value>"
        ++ "\nIP: " ++ (a.Annotations.index "ip").getD "<no value>"
        ++ "\n描述: " ++ (a.Annotations.index "description").getD "<no value>"
        ++ "\n\n") := by
  have e1 : " \n" ++ "**[⚠️告警]**\n告警名称: " = " \n**[⚠️告警]**\n告警名称: " := by decide
  have e2 : "\n" ++ "\n" = "\n\n" := by decide
  simp only [execBody, rangeBody, execList, execItem, firingBranch, execLeaf, evalPipeline,
    evalMapField_mapInvalid, h, if_true, String.append_assoc, String.append_empty]
  rw [← String.append_assoc " \n", e1, e2]

theorem execBody_resolved (loc : Option Location) (a : Alert) (h : a.Status ≠ "firing") :
    execBody .mapInvalid loc rangeBody a = .ok
      (" \n**[✅恢复]**\n告警名称: " ++ (a.Labels.index "alertname").getD "<no value>"
        ++ "\n开始时间: " ++ formatTime loc a.StartsAt
        ++ "\n结束时间: " ++ formatTime loc a.EndsAt
        ++ "\n实例: " ++ (a.Labels.index "instance").getD "<no value>"
        ++ "\nIP: " ++ (a.Annotations.index "ip").getD "<no value>"
        ++ "\n描述: " ++ (a.Annotations.index "description").getD "<no value>"
        ++ "\n\n") := by
  have e1 : " \n" ++ "**[✅恢复]**\n告警名称: " = " \n**[✅恢复]**\n告警名称: " := by decide
  have e2 : "\n" ++ "\n" = "\n\n" := by decide
  simp only [execBody, rangeBody, execList, execItem, resolvedBranch, execLeaf, evalPipeline,
    evalMapField_mapInvalid, h, if_false, String.append_assoc, String.append_empty]
  rw [← String.append_assoc " \n", e1, e2]

/-- The error path of the execution is real: under `missingkey=error`, which the program
does not set, an alert with nil labels makes the execution fail. -/
theorem execBody_mapError_fails (loc : Option Location) :
    execBody .mapError loc rangeBody { highCPU with Labels := none }
      = .error "map has no entry for key alertname" := by
  rfl

theorem execBody_total (loc : Option Location) (a : Alert) :
    ∃ s, execBody .mapInvalid loc rangeBody a = .ok s := by
  by_cases h : a.Status = "firing"
  · exact ⟨_, execBody_firing loc a h⟩
  · exact ⟨_, execBody_resolved loc a h⟩

theorem join_cons (s : String) (ss : List String) :
    String.join (s :: ss) = s ++ String.join ss := by
  apply String.ext
  simp [String.data_join, String.data_append]

theorem join_append (xs ys : List String) :
    String.join (xs ++ ys) = String.join xs ++ String.join ys := by
  apply String.ext
  simp [String.data_join, String.data_append]

theorem execList_of_ok {α : Type} (f : α → Except String String) (g : α → String)
    (h : ∀ x, f x = .ok (g x)) (xs : List α) :
    execList f xs = .ok (String.join (xs.map g)) := by
  induction xs with
  | nil => rfl
  | cons x rest ih =>
    simp only [execList, h x, ih, List.map, join_cons]

theorem execute_of_range (loc : Option Location) (xs : List Alert) (b : String)
    (h : execRange .mapInvalid loc rangeBody xs = .ok b) :
    execute .mapInvalid loc alertTemplate xs = .ok ("\n" ++ b ++ "\n") := by
  simp only [execute, alertTemplate, execList, execTop, h, String.append_empty,
    String.append_assoc]

theorem execute_of_blocks (loc : Option Location) (block : Alert → String)
    (h : ∀ a, execBody .mapInvalid loc rangeBody a = .ok (block a)) (xs : List Alert) :
    execute .mapInvalid loc alertTemplate xs
      = .ok ("\n" ++ String.join (xs.map block) ++ "\n") :=
  execute_of_range loc xs _ (execList_of_ok _ block h xs)

theorem blocks_exist (loc : Option Location) :
    ∃ block : Alert → String, ∀ a, execBody .mapInvalid loc rangeBody a = .ok (block a) := by
  refine ⟨fun a => match execBody .mapInvalid loc rangeBody a with
    | .ok s => s
    | .error _ => "", fun a => ?_⟩
  obtain ⟨s, hs⟩ := execBody_total loc a
  simp only [hs]

theorem execute_total (loc : Option Location) (xs : List Alert) :
    ∃ s, execute .mapInvalid loc alertTemplate xs = .ok s := by
  obtain ⟨block, hb⟩ := blocks_exist loc
  exact ⟨_, execute_of_blocks loc block hb xs⟩

theorem execList_congr_at {α : Type} (f : α → Except String String) (x y : α)
    (h : f x = f y) (xs ys : List α) :
    execList f (xs ++ x :: ys) = execList f (xs ++ y :: ys) := by
  induction xs with
  | nil => simp only [List.nil_append, execList, h]
  | cons z rest ih =>
    show execList f (z :: (rest ++ x :: ys)) = execList f (z :: (rest ++ y :: ys))
    simp only [execList, ih]

theorem execute_congr_at (opt : MissingKey) (loc : Option Location) (a b : Alert)
    (h : execBody opt loc rangeBody a = execBody opt loc rangeBody b) (xs ys : List Alert) :
    execute opt loc alertTemplate (xs ++ a :: ys) = execute opt loc alertTemplate (xs ++ b :: ys) := by
  have hr : execRange opt loc rangeBody (xs ++ a :: ys)
      = execRange opt loc rangeBody (xs ++ b :: ys) :=
    execList_congr_at _ a b h xs ys
  simp only [execute, alertTemplate, execList, execTop, hr]

/-! ## The dispatcher and the handler -/

theorem sendToGotify_sent (env : Env) (p : GotifyPayload) :
    (sendToGotify env p).2
      = if env.validURL env.gotifyURL then [gotifyRequest env p] else [] := by
  unfold sendToGotify
  by_cases hv : env.validURL env.gotifyURL = true
  · simp only [hv, if_true]
    cases env.clientDo (gotifyRequest env p) with
    | err msg => rfl
    | resp code => by_cases hc : code = 200 <;> simp [hc]
  · simp only [hv, if_false]
    simp

theorem sendToGotify_nil_iff (env : Env) (p : GotifyPayload) :
    (sendToGotify env p).1 = none ↔
      (env.validURL env.gotifyURL = true ∧ env.clientDo (gotifyRequest env p) = .resp 200) := by
  unfold sendToGotify
  by_cases hv : env.validURL env.gotifyURL = true
  · simp only [hv, if_true, true_and]
    cases env.clientDo (gotifyRequest env p) with
    | err msg => simp
    | resp code => by_cases hc : code = 200 <;> simp [hc]
  · simp [hv]

theorem webhookHandler_decoded (env : Env) (body : Option Json) (payload : AlertManagerPayload)
    (message : String) (h : decodeBody env.parseTime body = .ok payload)
    (hm : execute .mapInvalid env.loadLocation alertTemplate payload.Alerts = .ok message) :
    (webhookHandler env body).dispatched = [⟨"Prometheus Alert", message, 5⟩] ∧
    (webhookHandler env body).sent = (sendToGotify env ⟨"Prometheus Alert", message, 5⟩).2 ∧
    (webhookHandler env body).status
      = if (sendToGotify env ⟨"Prometheus Alert", message, 5⟩).1 = none then 200 else 500 := by
  simp only [webhookHandler, h, hm]
  rcases hs : sendToGotify env ⟨"Prometheus Alert", message, 5⟩ with ⟨err, sent⟩
  cases err with
  | none => simp
  | some e => simp

/-! ## The claims -/

/-- C1. For an alert whose status is exactly "firing" the block is the firing block, and
both its start-time line and its end-time line carry `formatTime` of `StartsAt`; `EndsAt`
is not used, so firing alerts that differ only in `EndsAt` render to the same block. (A
label or annotation that is absent is printed as `<no value>`.) -/
theorem firing_end_time_is_start_time (loc : Option Location) (a : Alert)
    (h : a.Status = "firing") :
    execBody .mapInvalid loc rangeBody a = .ok
      (" \n**[⚠️告警]**\n告警名称: " ++ (a.Labels.index "alertname").getD "<no value>"
        ++ "\n开始时间: " ++ formatTime loc a.StartsAt
        ++ "\n结束时间: " ++ formatTime loc a.StartsAt
        ++ "\n实例: " ++ (a.Labels.index "instance").getD "<no value>"
        ++ "\nIP: " ++ (a.Annotations.index "ip").getD "<no value>"
        ++ "\n描述: " ++ (a.Annotations.index "description").getD "<no value>"
        ++ "\n\n") ∧
    ∀ e : Time, execBody .mapInvalid loc rangeBody { a with EndsAt := e }
      = execBody .mapInvalid loc rangeBody a := by
  refine ⟨execBody_firing loc a h, fun e => ?_⟩
  rw [execBody_firing loc { a with EndsAt := e } h, execBody_firing loc a h]

/-- C1 at the sample alert: moving `EndsAt` from the zero time to an hour after the start
leaves the block as it is. -/
theorem firing_end_time_is_start_time_witness :
    highCPU.Status = "firing" ∧
    execBody .mapInvalid (some asiaShanghai) rangeBody
        { highCPU with EndsAt := ⟨1705318200, 0, 0⟩ }
      = execBody .mapInvalid (some asiaShanghai) rangeBody highCPU :=
  ⟨by decide, (firing_end_time_is_start_time (some asiaShanghai) highCPU (by decide)).2 _⟩

/-- C2. For an alert whose status is any string other than exactly "firing" the block is
the resolved block: its start-time line carries `formatTime` of `StartsAt` and its
end-time line `formatTime` of `EndsAt`. (A label or annotation that is absent is printed
as `<no value>`.) -/
theorem non_firing_renders_resolved (loc : Option Location) (a : Alert)
    (h : a.Status ≠ "firing") :
    execBody .mapInvalid loc rangeBody a = .ok
      (" \n**[✅恢复]**\n告警名称: " ++ (a.Labels.index "alertname").getD "<no value>"
        ++ "\n开始时间: " ++ formatTime loc a.StartsAt
        ++ "\n结束时间: " ++ formatTime loc a.EndsAt
        ++ "\n实例: " ++ (a.Labels.index "instance").getD "<no value>"
        ++ "\nIP: " ++ (a.Annotations.index "ip").getD "<no value>"
        ++ "\n描述: " ++ (a.Annotations.index "description").getD "<no value>"
        ++ "\n\n") :=
  execBody_resolved loc a h

/-- C2 at the status "Firing" (capitalised), with an end one hour after the start. -/
theorem non_firing_renders_resolved_witness :
    "Firing" ≠ "firing" ∧
    execBody .mapInvalid (some asiaShanghai) rangeBody
        { highCPU with Status := "Firing", EndsAt := ⟨1705318200, 0, 0⟩ }
      = .ok " \n**[✅恢复]**\n告警名称: HighCPU\n开始时间: 2024-01-15 18:30:00\n结束时间: 2024-01-15 19:30:00\n实例: host1\nIP: 10.0.0.1\n描述: CPU too high\n\n" :=
  ⟨by decide,
   (non_firing_renders_resolved (some asiaShanghai)
      { highCPU with Status := "Firing", EndsAt := ⟨1705318200, 0, 0⟩ } (by decide)).trans
     (congrArg Except.ok (by decide))⟩

/-- C4. Rendering is the concatenation of one block per alert in input order between the
two fixed newlines of the template: there is a block function of the single alert such
that every batch renders to newline, its blocks in order, newline. So a batch `xs ++ ys`
renders the blocks of `xs` and then those of `ys`, an alert given twice is rendered
twice, and the empty batch renders to the two newlines alone. -/
theorem render_is_concatenation (loc : Option Location) :
    ∃ block : Alert → String,
      (∀ a, execBody .mapInvalid loc rangeBody a = .ok (block a)) ∧
      (∀ xs, execute .mapInvalid loc alertTemplate xs
        = .ok ("\n" ++ String.join (xs.map block) ++ "\n")) ∧
      (∀ xs ys, execute .mapInvalid loc alertTemplate (xs ++ ys)
        = .ok ("\n" ++ (String.join (xs.map block) ++ String.join (ys.map block)) ++ "\n")) ∧
      (∀ a b c, execute .mapInvalid loc alertTemplate [a, b, c]
        = .ok ("\n" ++ (block a ++ block b ++ block c) ++ "\n")) ∧
      (∀ a, execute .mapInvalid loc alertTemplate [a, a]
        = .ok ("\n" ++ (block a ++ block a) ++ "\n")) ∧
      execute .mapInvalid loc alertTemplate [] = .ok "\n\n" := by
  obtain ⟨block, hb⟩ := blocks_exist loc
  refine ⟨block, hb, execute_of_blocks loc block hb, fun xs ys => ?_, fun a b c => ?_,
    fun a => ?_, ?_⟩
  · rw [execute_of_blocks loc block hb, List.map_append, join_append]
  · rw [execute_of_blocks loc block hb]
    simp only [List.map, join_cons, String.join, List.foldl, String.append_empty,
      String.empty_append, String.append_assoc]
  · rw [execute_of_blocks loc block hb]
    simp only [List.map, join_cons, String.join, List.foldl, String.append_empty,
      String.empty_append]
  · rfl

/-- C5, amended. A label or annotation key that is missing from its map, or whose map is
nil, is rendered without error as the text `<no value>`: the block, and the message of any
batch containing the alert, are those of the same alert with the key stored with the
string `<no value>`. Rendering returns no error for any alert and any batch. -/
theorem missing_key_renders_no_value (loc : Option Location) (a : Alert) (k : String) :
    (a.Labels.index k = none →
      execBody .mapInvalid loc rangeBody { a with Labels := a.Labels.set k "<no value>" }
        = execBody .mapInvalid loc rangeBody a ∧
      ∀ xs ys, execute .mapInvalid loc alertTemplate
          (xs ++ { a with Labels := a.Labels.set k "<no value>" } :: ys)
        = execute .mapInvalid loc alertTemplate (xs ++ a :: ys)) ∧
    (a.Annotations.index k = none →
      execBody .mapInvalid loc rangeBody
          { a with Annotations := a.Annotations.set k "<no value>" }
        = execBody .mapInvalid loc rangeBody a ∧
      ∀ xs ys, execute .mapInvalid loc alertTemplate
          (xs ++ { a with Annotations := a.Annotations.set k "<no value>" } :: ys)
        = execute .mapInvalid loc alertTemplate (xs ++ a :: ys)) ∧
    (∃ s, execBody .mapInvalid loc rangeBody a = .ok s) ∧
    (∀ batch, ∃ s, execute .mapInvalid loc alertTemplate batch = .ok s) := by
  refine ⟨fun h => ?_, fun h => ?_, execBody_total loc a, execute_total loc⟩
  · have hb : execBody .mapInvalid loc rangeBody
          { a with Labels := a.Labels.set k "<no value>" }
        = execBody .mapInvalid loc rangeBody a := by
      simp only [execBody, rangeBody, execList, execItem, firingBranch, resolvedBranch,
        execLeaf, evalPipeline, evalMapField_set_missing _ _ _ h]
    exact ⟨hb, execute_congr_at _ loc _ _ hb⟩
  · have hb : execBody .mapInvalid loc rangeBody
          { a with Annotations := a.Annotations.set k "<no value>" }
        = execBody .mapInvalid loc rangeBody a := by
      simp only [execBody, rangeBody, execList, execItem, firingBranch, resolvedBranch,
        execLeaf, evalPipeline, evalMapField_set_missing _ _ _ h]
    exact ⟨hb, execute_congr_at _ loc _ _ hb⟩

/-- C5 amended, at the sample alert without its `ip` annotation: the block is that of the
alert whose annotations hold `ip` with the string `<no value>`, and its IP line reads
`<no value>`. -/
theorem missing_key_renders_no_value_witness :
    execBody .mapInvalid (some asiaShanghai) rangeBody
        { highCPU with
          Annotations := some [("ip", "<no value>"), ("description", "CPU too high")] }
      = execBody .mapInvalid (some asiaShanghai) rangeBody
        { highCPU with Annotations := some [("description", "CPU too high")] } ∧
    execBody .mapInvalid (some asiaShanghai) rangeBody
        { highCPU with Annotations := some [("description", "CPU too high")] }
      = .ok " \n**[⚠️告警]**\n告警名称: HighCPU\n开始时间: 2024-01-15 18:30:00\n结束时间: 2024-01-15 18:30:00\n实例: host1\nIP: <no value>\n描述: CPU too high\n\n" :=
  ⟨((missing_key_renders_no_value (some asiaShanghai)
      { highCPU with Annotations := some [("description", "CPU too high")] } "ip").2.1 rfl).1,
   congrArg Except.ok (by decide)⟩

/-- C5 as stated fails: without the `ip` annotation, and likewise with nil labels, the
field is rendered as `<no value>`, while the same alert with the key stored with the empty
string renders an empty field; the two blocks differ. -/
theorem missing_key_is_not_rendered_empty :
    GoMap.index (some [("description", "CPU too high")]) "ip" = none ∧
    execBody .mapInvalid (some asiaShanghai) rangeBody
        { highCPU with Annotations := some [("description", "CPU too high")] }
      = .ok " \n**[⚠️告警]**\n告警名称: HighCPU\n开始时间: 2024-01-15 18:30:00\n结束时间: 2024-01-15 18:30:00\n实例: host1\nIP: <no value>\n描述: CPU too high\n\n" ∧
    execBody .mapInvalid (some asiaShanghai) rangeBody
        { highCPU with Annotations := some [("ip", ""), ("description", "CPU too high")] }
      = .ok " \n**[⚠️告警]**\n告警名称: HighCPU\n开始时间: 2024-01-15 18:30:00\n结束时间: 2024-01-15 18:30:00\n实例: host1\nIP: \n描述: CPU too high\n\n" ∧
    execBody .mapInvalid (some asiaShanghai) rangeBody
        { highCPU with Annotations := some [("description", "CPU too high")] }
      ≠ execBody .mapInvalid (some asiaShanghai) rangeBody
        { highCPU with Annotations := some [("ip", ""), ("description", "CPU too high")] } ∧
    execBody .mapInvalid (some asiaShanghai) rangeBody { highCPU with Labels := none }
      = .ok " \n**[⚠️告警]**\n告警名称: <no value>\n开始时间: 2024-01-15 18:30:00\n结束时间: 2024-01-15 18:30:00\n实例: <no value>\nIP: 10.0.0.1\n描述: CPU too high\n\n" :=
  ⟨by decide, congrArg Except.ok (by decide), congrArg Except.ok (by decide),
   fun h => absurd (Except.ok.inj h) (by decide), congrArg Except.ok (by decide)⟩

/-- C9. Label and annotation values go into the block as they are: for a firing alert
whose `alertname`, `instance`, `ip` and `description` are any four strings, rendering
succeeds and the block is the marker line and the six field lines in order with each
value unchanged between its label and the next newline; the message is that block between
the two newlines of the template. -/
theorem values_inserted_verbatim (loc : Option Location) (a : Alert)
    (name inst ip desc : String) (hs : a.Status = "firing")
    (h1 : a.Labels.index "alertname" = some name)
    (h2 : a.Labels.index "instance" = some inst)
    (h3 : a.Annotations.index "ip" = some ip)
    (h4 : a.Annotations.index "description" = some desc) :
    execBody .mapInvalid loc rangeBody a = .ok
      (" \n**[⚠️告警]**\n告警名称: " ++ name
        ++ "\n开始时间: " ++ formatTime loc a.StartsAt
        ++ "\n结束时间: " ++ formatTime loc a.StartsAt
        ++ "\n实例: " ++ inst
        ++ "\nIP: " ++ ip
        ++ "\n描述: " ++ desc
        ++ "\n\n") ∧
    execute .mapInvalid loc alertTemplate [a] = .ok
      ("\n" ++ (" \n**[⚠️告警]**\n告警名称: " ++ name
        ++ "\n开始时间: " ++ formatTime loc a.StartsAt
        ++ "\n结束时间: " ++ formatTime loc a.StartsAt
        ++ "\n实例: " ++ inst
        ++ "\nIP: " ++ ip
        ++ "\n描述: " ++ desc
        ++ "\n\n") ++ "\n") := by
  have hb := execBody_firing loc a hs
  simp only [h1, h2, h3, h4, Option.getD_some] at hb
  refine ⟨hb, ?_⟩
  apply execute_of_range
  simp only [execRange, execList, hb, String.append_empty]

/-- C9 at the end-to-end example: the block of the HighCPU alert, character by
character, with the start time twice. -/
theorem values_inserted_verbatim_witness :
    execBody .mapInvalid (some asiaShanghai) rangeBody highCPU
      = .ok " \n**[⚠️告警]**\n告警名称: HighCPU\n开始时间: 2024-01-15 18:30:00\n结束时间: 2024-01-15 18:30:00\n实例: host1\nIP: 10.0.0.1\n描述: CPU too high\n\n" :=
  (values_inserted_verbatim (some asiaShanghai) highCPU "HighCPU" "host1" "10.0.0.1"
    "CPU too high" (by decide) (by decide) (by decide) (by decide) (by decide)).1.trans
    (congrArg Except.ok (by decide))

theorem appendInt_length (x : Int) (w : Nat) (h0 : 0 ≤ x) (h1 : x.natAbs < 10 ^ w)
    (hw : 0 < w) : (appendInt x w).length = w := by
  have hlen : (Nat.toDigits 10 x.natAbs).length ≤ w :=
    Nat.toDigitsCore_length 10 (by decide) _ _ w h1 hw
  have hneg : ¬ x < 0 := by omega
  simp only [appendInt, hneg, if_false, String.empty_append, String.length,
    List.length_append, List.length_replicate]
  omega

/-- C3, amended. When the zone has the offset +8:00 at the instant, `formatTime` writes
the date and time of the clock eight hours ahead of UTC as year, month, day, hour, minute
and second, zero-padded to 4, 2, 2, 2, 2, 2 digits and separated as in
`YYYY-MM-DD HH:mm:ss` (19 characters for the years 0 to 9999), without fraction and
without zone. The nanoseconds and the offset the value came with do not matter. In the
zone table of `Asia/Shanghai` the offset is +8:00 at every instant from
1991-09-14T17:00:00Z on. -/
theorem formatTime_at_utc8 (loc : Location) (t : Time) (h : loc.lookup t.unix = 28800) :
    (∃ y mo d hh mi ss : Int,
      1 ≤ mo ∧ mo ≤ 12 ∧ 1 ≤ d ∧ d ≤ daysIn y mo ∧
      0 ≤ hh ∧ hh < 24 ∧ 0 ≤ mi ∧ mi < 60 ∧ 0 ≤ ss ∧ ss < 60 ∧
      unixDate y mo d hh mi ss = t.unix + 8 * 3600 ∧
      formatTime (some loc) t
        = appendInt y 4 ++ "-" ++ appendInt mo 2 ++ "-" ++ appendInt d 2 ++ " "
          ++ appendInt hh 2 ++ ":" ++ appendInt mi 2 ++ ":" ++ appendInt ss 2 ∧
      (0 ≤ y → y ≤ 9999 → (formatTime (some loc) t).length = 19)) ∧
    (∀ n o, formatTime (some loc) ⟨t.unix, n, o⟩ = formatTime (some loc) t) ∧
    (684867600 ≤ t.unix → asiaShanghai.lookup t.unix = 28800) := by
  refine ⟨?_, fun n o => rfl, asiaShanghai_lookup_recent t.unix⟩
  obtain ⟨a1, a2, a3, a4, a5, a6, a7, a8, a9, a10, a11⟩ := date_clock_spec (t.In loc)
  have hoff : (t.In loc).unix + (t.In loc).offset = t.unix + 8 * 3600 := by
    show t.unix + loc.lookup t.unix = t.unix + 8 * 3600
    rw [h]
    rfl
  have hfmt : formatTime (some loc) t = (t.In loc).Format layoutDateTime := rfl
  refine ⟨_, _, _, _, _, _, a1, a2, a3, a4, a5, a6, a7, a8, a9, a10, a11.trans hoff,
    hfmt.trans (format_layoutDateTime _), fun hy0 hy1 => ?_⟩
  rw [hfmt, format_layoutDateTime]
  simp only [String.length_append]
  rw [appendInt_length _ 4 hy0 (by omega) (by decide),
    appendInt_length _ 2 (by omega) (by omega) (by decide),
    appendInt_length _ 2 (by omega) (by have := a4; simp only [daysIn] at this; split_ifs at this <;> omega) (by decide),
    appendInt_length _ 2 a5 (by omega) (by decide),
    appendInt_length _ 2 a7 (by omega) (by decide),
    appendInt_length _ 2 a9 (by omega) (by decide)]
  rfl

/-- C3 amended, at the instant of the specification: 2024-01-15T10:30:00Z is formatted
as 18:30:00 of the same day. -/
theorem formatTime_at_utc8_witness :
    asiaShanghai.lookup 1705314600 = 28800 ∧
    unixDate 2024 1 15 10 30 0 = 1705314600 ∧
    formatTime (some asiaShanghai) ⟨1705314600, 0, 0⟩ = "2024-01-15 18:30:00" ∧
    formatTime (some asiaShanghai) ⟨1705314600, 999999999, -18000⟩
      = formatTime (some asiaShanghai) ⟨1705314600, 0, 0⟩ :=
  ⟨by decide, by decide, by decide,
   (formatTime_at_utc8 asiaShanghai ⟨1705314600, 0, 0⟩ (by decide)).2.1 999999999 (-18000)⟩

/-- C3 as stated fails: on 1988-07-01T00:00:00Z Shanghai was on summer time, and the
instant is formatted as 09:00:00, nine hours ahead of UTC, where the clock eight hours
ahead shows 08:00:00; the zero time 0001-01-01T00:00:00Z is formatted with the local mean
time of the zone, 8:05:43 ahead. -/
theorem formatTime_not_always_utc8 :
    unixDate 1988 7 1 0 0 0 = 583718400 ∧
    formatTime (some asiaShanghai) ⟨583718400, 0, 0⟩ = "1988-07-01 09:00:00" ∧
    Time.Format ⟨583718400, 0, 8 * 3600⟩ layoutDateTime = "1988-07-01 08:00:00" ∧
    formatTime (some asiaShanghai) ⟨583718400, 0, 0⟩
      ≠ Time.Format ⟨583718400, 0, 8 * 3600⟩ layoutDateTime ∧
    formatTime (some asiaShanghai) zeroTime = "0001-01-01 08:05:43" := by
  decide

/-- C10. When the zone cannot be loaded `formatTime` returns `t.Format(time.RFC3339)`:
date and time of the clock of the value's own offset, `T` between them, and the offset as
`Z` or as sign, hours and minutes. Rendering then still succeeds for every batch, and a
decoded request still reaches the dispatcher. -/
theorem formatTime_fallback_rfc3339 (t : Time) :
    formatTime none t = t.Format RFC3339 ∧
    (∃ y mo d hh mi ss : Int,
      1 ≤ mo ∧ mo ≤ 12 ∧ 1 ≤ d ∧ d ≤ daysIn y mo ∧
      0 ≤ hh ∧ hh < 24 ∧ 0 ≤ mi ∧ mi < 60 ∧ 0 ≤ ss ∧ ss < 60 ∧
      unixDate y mo d hh mi ss = t.unix + t.offset ∧
      formatTime none t
        = appendInt y 4 ++ "-" ++ appendInt mo 2 ++ "-" ++ appendInt d 2 ++ "T"
          ++ appendInt hh 2 ++ ":" ++ appendInt mi 2 ++ ":" ++ appendInt ss 2
          ++ formatZone t.offset) ∧
    (∀ batch, ∃ s, execute .mapInvalid none alertTemplate batch = .ok s) ∧
    (∀ (env : Env) (body : Option Json) (payload : AlertManagerPayload),
      env.loadLocation = none → decodeBody env.parseTime body = .ok payload →
      ∃ message, (webhookHandler env body).dispatched = [⟨"Prometheus Alert", message, 5⟩]) ∧
    formatTime none ⟨1705314600, 0, 0⟩ = "2024-01-15T10:30:00Z" ∧
    formatTime none ⟨1705314600, 0, 8 * 3600⟩ = "2024-01-15T18:30:00+08:00" ∧
    formatTime none ⟨1705314600, 0, -(5 * 3600 + 30 * 60)⟩ = "2024-01-15T05:00:00-05:30" := by
  refine ⟨rfl, ?_, execute_total none, fun env body payload hl hd => ?_, by decide, by decide,
    by decide⟩
  · obtain ⟨a1, a2, a3, a4, a5, a6, a7, a8, a9, a10, a11⟩ := date_clock_spec t
    exact ⟨_, _, _, _, _, _, a1, a2, a3, a4, a5, a6, a7, a8, a9, a10, a11, format_RFC3339 t⟩
  · obtain ⟨message, hm⟩ := execute_total env.loadLocation payload.Alerts
    exact ⟨message, (webhookHandler_decoded env body payload message hd hm).1⟩

/-- C10 at the sample request with the zone database missing: the one notification
carries the start time in RFC 3339. -/
theorem formatTime_fallback_rfc3339_witness :
    (webhookHandler { sampleEnv with loadLocation := none } (some highCPUBody)).dispatched
      = [⟨"Prometheus Alert", "\n \n**[⚠️告警]**\n告警名称: HighCPU\n开始时间: 2024-01-15T10:30:00Z\n结束时间: 2024-01-15T10:30:00Z\n实例: host1\nIP: 10.0.0.1\n描述: CPU too high\n\n\n", 5⟩] ∧
    formatTime none ⟨1705314600, 0, 0⟩ = Time.Format ⟨1705314600, 0, 0⟩ RFC3339 :=
  ⟨by decide, (formatTime_fallback_rfc3339 ⟨1705314600, 0, 0⟩).1⟩

/-- C6. For a request whose body decodes, of any batch size, `webhookHandler` calls
`sendToGotify` exactly once, with the title "Prometheus Alert", the priority 5 and the
rendering of the whole batch as message; the one request built from that payload is
handed to `client.Do` once (none when `http.NewRequest` rejects the configured URL). -/
theorem one_dispatch_per_request (env : Env) (body : Option Json)
    (payload : AlertManagerPayload) (h : decodeBody env.parseTime body = .ok payload) :
    ∃ message,
      execute .mapInvalid env.loadLocation alertTemplate payload.Alerts = .ok message ∧
      (webhookHandler env body).dispatched = [⟨"Prometheus Alert", message, 5⟩] ∧
      (webhookHandler env body).sent
        = if env.validURL env.gotifyURL
          then [gotifyRequest env ⟨"Prometheus Alert", message, 5⟩] else [] := by
  obtain ⟨message, hm⟩ := execute_total env.loadLocation payload.Alerts
  obtain ⟨h1, h2, _⟩ := webhookHandler_decoded env body payload message h hm
  exact ⟨message, hm, h1, h2.trans (sendToGotify_sent env _)⟩

/-- C6 at the body that holds an empty `alerts` array: one notification, whose message is
the two newlines of the template. -/
theorem one_dispatch_per_request_witness :
    decodeBody sampleEnv.parseTime (some (.obj [("alerts", .arr [])])) = .ok ⟨[]⟩ ∧
    ∃ message,
      execute .mapInvalid sampleEnv.loadLocation alertTemplate [] = .ok message ∧
      (webhookHandler sampleEnv (some (.obj [("alerts", .arr [])]))).dispatched
        = [⟨"Prometheus Alert", message, 5⟩] ∧
      (webhookHandler sampleEnv (some (.obj [("alerts", .arr [])]))).sent
        = if sampleEnv.validURL sampleEnv.gotifyURL
          then [gotifyRequest sampleEnv ⟨"Prometheus Alert", message, 5⟩] else [] :=
  ⟨rfl, one_dispatch_per_request sampleEnv (some (.obj [("alerts", .arr [])])) ⟨[]⟩ rfl⟩

/-- A second `alerts` member is decoded into the elements the first one left: the status
of the first survives, the labels of the second are added, and the length is that of the
second array. -/
theorem repeated_alerts_member_reuses_elements :
    decodeBody sampleEnv.parseTime
        (some (.obj [("alerts", .arr [.obj [("status", .str "firing")], .obj []]),
                     ("alerts", .arr [.obj [("labels", .obj [("a", .str "b")])]])]))
      = .ok ⟨[{ zeroAlert with Status := "firing", Labels := some [("a", "b")] }]⟩ := by
  rfl

/-- C8. For a request whose body decodes, the answer is 200 exactly when the request was
handed to `client.Do` and came back with status 200. In every other case (the request
could not be built, `client.Do` returned an error, or the status is another one, 201 and
204 included) `sendToGotify` returns an error and the answer is 500. The dispatcher is
called once and at most one request is sent: nothing is retried. -/
theorem status_200_iff_gotify_200 (env : Env) (body : Option Json)
    (payload : AlertManagerPayload) (h : decodeBody env.parseTime body = .ok payload) :
    ∃ message,
      execute .mapInvalid env.loadLocation alertTemplate payload.Alerts = .ok message ∧
      ((webhookHandler env body).status = 200 ↔
        (env.validURL env.gotifyURL = true ∧
          env.clientDo (gotifyRequest env ⟨"Prometheus Alert", message, 5⟩) = .resp 200)) ∧
      (¬ (env.validURL env.gotifyURL = true ∧
          env.clientDo (gotifyRequest env ⟨"Prometheus Alert", message, 5⟩) = .resp 200) →
        (sendToGotify env ⟨"Prometheus Alert", message, 5⟩).1 ≠ none ∧
        (webhookHandler env body).status = 500) ∧
      (webhookHandler env body).dispatched.length = 1 ∧
      (webhookHandler env body).sent.length ≤ 1 := by
  obtain ⟨message, hm⟩ := execute_total env.loadLocation payload.Alerts
  obtain ⟨h1, h2, h3⟩ := webhookHandler_decoded env body payload message h hm
  have hiff := sendToGotify_nil_iff env ⟨"Prometheus Alert", message, 5⟩
  refine ⟨message, hm, ?_, fun hn => ?_, ?_, ?_⟩
  · rw [h3, ← hiff]
    split_ifs with hc <;> simp [hc]
  · have hne : ¬ (sendToGotify env ⟨"Prometheus Alert", message, 5⟩).1 = none :=
      fun hc => hn (hiff.mp hc)
    refine ⟨hne, ?_⟩
    rw [h3, if_neg hne]
  · rw [h1]
    rfl
  · rw [h2, sendToGotify_sent]
    split_ifs <;> simp

/-- C8 at a Gotify that answers 204: the request is sent once and the answer is 500. -/
theorem status_200_iff_gotify_200_witness :
    (webhookHandler { sampleEnv with clientDo := fun _ => .resp 204 }
      (some highCPUBody)).status = 500 ∧
    (webhookHandler { sampleEnv with clientDo := fun _ => .resp 204 }
      (some highCPUBody)).sent.length = 1 ∧
    (webhookHandler sampleEnv (some highCPUBody)).status = 200 := by
  obtain ⟨_, _, _, h500, _, _⟩ :=
    status_200_iff_gotify_200 { sampleEnv with clientDo := fun _ => .resp 204 }
      (some highCPUBody) _ rfl
  obtain ⟨_, _, h200, _, _, _⟩ := status_200_iff_gotify_200 sampleEnv (some highCPUBody) _ rfl
  exact ⟨(h500 (fun hc => by simp at hc)).2, by decide, h200.mpr ⟨rfl, rfl⟩⟩

end AlertmanagerGotify
